import Mathlib

/-!
Verification of the breast-summary document pipeline.

Shallow embedding of:
- the structured-extraction merge engine of
  `src/components/DocumentUploader.tsx` (`mergeRadiologyExtractions` and its
  per-field helpers);
- the PDF text-acquisition pipeline of `src/services/pdfService.ts`
  (`extractTextFromPdf`, `getOcrWorker`);
- the radiology extraction entry point of `src/services/openaiService.ts`
  (`summarizeRadiologyReportJson`);
- the batch loops of `DocumentUploader.tsx` (`handleFiles`,
  `generateSummaries`, `generateRadiologyBatchSummary`).

JavaScript string primitives are modelled structurally: `jsTrim` models
`String.prototype.trim` (drop leading and trailing whitespace characters) and
`joinSep` models `Array.prototype.join`.  `dedupFirst` models insertion-order
de-duplication through `new Set(...)` / keyed `Map` building (first-seen
occurrence kept), which is how the source de-duplicates strings and
structurally identical records.
-/

/-- Model of `String.prototype.trim`: remove leading and trailing whitespace
characters. -/
def jsTrim (s : String) : String :=
  String.mk (((s.data.dropWhile Char.isWhitespace).reverse.dropWhile
    Char.isWhitespace).reverse)

/-- Model of `Array.prototype.join(sep)`: empty array gives `""`, a singleton
gives its element, otherwise elements interleaved with the separator. -/
def joinSep (sep : String) : List String → String
  | [] => ""
  | x :: xs => xs.foldl (fun acc s => acc ++ sep ++ s) x

/-- One step of insertion-order set building: append the element unless it is
already present. -/
def insertUnique [DecidableEq α] (acc : List α) (a : α) : List α :=
  if a ∈ acc then acc else acc ++ [a]

/-- Insertion-order de-duplication, keeping the first occurrence of each
element: the behaviour of `Array.from(new Set(xs))` and of building a keyed
`Map` in iteration order. -/
def dedupFirst [DecidableEq α] (xs : List α) : List α :=
  xs.foldl insertUnique []

/-! ## Data model (`src/models/radiology-extraction.ts`) -/

/-- `birads.confidence`: `'low' | 'medium' | 'high'`. -/
inductive Confidence where
  | low
  | medium
  | high
deriving DecidableEq, Repr

/-- `breast_density.value` categories `'A' | 'B' | 'C' | 'D'`. -/
inductive Density where
  | A
  | B
  | C
  | D
deriving DecidableEq, Repr

/-- `exam.laterality`: `'left' | 'right' | 'bilateral'` (absence is `Option`). -/
inductive Laterality where
  | left
  | right
  | bilateral
deriving DecidableEq, Repr

/-- Finding-level laterality, which additionally allows `'unknown'`. -/
inductive FindingLaterality where
  | left
  | right
  | bilateral
  | unknown
deriving DecidableEq, Repr

/-- Finding assessment enumeration. -/
inductive Assessment where
  | benign
  | probably_benign
  | suspicious
  | highly_suggestive_malignancy
  | incomplete
  | unknown
deriving DecidableEq, Repr

/-- One element of `findings`. -/
structure Finding where
  laterality : FindingLaterality
  location : Option String
  description : String
  assessment : Assessment
  evidence : List String
deriving DecidableEq, Repr

/-- One element of `recommendations`. -/
structure Recommendation where
  action : String
  timeframe : Option String
  evidence : List String
deriving DecidableEq, Repr

/-- The `birads` field group. -/
structure BiradsField where
  value : Option Int
  confidence : Confidence
  evidence : List String
deriving DecidableEq, Repr

/-- The `breast_density` field group. -/
structure BreastDensityField where
  value : Option Density
  evidence : List String
deriving DecidableEq, Repr

/-- The `exam` field group. -/
structure ExamField where
  type : Option String
  laterality : Option Laterality
  evidence : List String
deriving DecidableEq, Repr

/-- The `comparison` field group. -/
structure ComparisonField where
  prior_exam_date : Option String
  evidence : List String
deriving DecidableEq, Repr

/-- The `RadiologyExtraction` record of `src/models/radiology-extraction.ts`. -/
structure RadiologyExtraction where
  summary : String
  birads : BiradsField
  breast_density : BreastDensityField
  exam : ExamField
  comparison : ComparisonField
  findings : List Finding
  recommendations : List Recommendation
  red_flags : List String
deriving DecidableEq, Repr

/-! ## Merge engine (`src/components/DocumentUploader.tsx`, lines 182-299) -/

/-- `mergeUniqueStrings`: trim every value, drop the falsy (empty) ones, then
de-duplicate keeping first-seen order (`Array.from(new Set(cleaned))`). -/
def mergeUniqueStrings (values : List String) : List String :=
  dedupFirst ((values.map jsTrim).filter (fun s => decide (s ≠ "")))

/-- `mergeEvidence`: flatten the entries (`entry ?? []` for absent ones) and
apply `mergeUniqueStrings`. -/
def mergeEvidence (entries : List (Option (List String))) : List String :=
  mergeUniqueStrings ((entries.map (fun entry => entry.getD [])).flatten)

/-- `mergeLaterality`: drop absent values; `bilateral` wins outright, a
`left`/`right` pair also yields `bilateral`, otherwise the first remaining
value (`normalized[0] ?? null`). -/
def mergeLaterality (values : List (Option Laterality)) : Option Laterality :=
  let normalized := values.filterMap id
  if Laterality.bilateral ∈ normalized then
    some Laterality.bilateral
  else if Laterality.left ∈ normalized ∧ Laterality.right ∈ normalized then
    some Laterality.bilateral
  else
    normalized.head?

/-- Position of a density category in the source's `ranking` array
`['A','B','C','D']` (its `indexOf`). -/
def densityRank : Density → Nat
  | Density.A => 0
  | Density.B => 1
  | Density.C => 2
  | Density.D => 3

/-- `mergeBreastDensity`: drop absent values; if none remain return `null`,
otherwise sort descending by ranking (`(a, b) => indexOf(b) - indexOf(a)`,
stable) and take the first element. -/
def mergeBreastDensity (values : List (Option Density)) : Option Density :=
  let filtered := values.filterMap id
  if filtered.isEmpty then
    none
  else
    (List.mergeSort filtered
      (fun a b => decide (densityRank b ≤ densityRank a))).head?

/-- Position of a confidence level in the source's `ranking` array
`['low','medium','high']` (its `indexOf`). -/
def confidenceRank : Confidence → Nat
  | Confidence.low => 0
  | Confidence.medium => 1
  | Confidence.high => 2

/-- `mergeBiradsConfidence`: sort descending by ranking and take the first
element, defaulting to `'low'`.  The source's `filter(Boolean)` only drops
empty strings, which the confidence enumeration excludes, so it is the
identity here. -/
def mergeBiradsConfidence (values : List Confidence) : Confidence :=
  ((List.mergeSort values
    (fun a b => decide (confidenceRank b ≤ confidenceRank a))).head?).getD
    Confidence.low

/-- `mergeComparisonDate`: among the non-absent candidates, keep those that
parse as dates (`Date.parse` is the environment's date parser, modelled as a
function to `Option Int` where `none` is `NaN`), sort them descending by
parsed time and take the first; if none parse, fall back to the first
candidate (`candidates[0] ?? null`). -/
def mergeComparisonDate (dateParse : String → Option Int)
    (values : List (Option String)) : Option String :=
  let candidates := values.filterMap id
  let parsedDates :=
    List.mergeSort
      (candidates.filterMap (fun v => (dateParse v).map (fun t => (v, t))))
      (fun a b => decide (b.2 ≤ a.2))
  match parsedDates.head? with
  | some entry => some entry.1
  | none => candidates.head?

/-- `mergeFindings`: flatten all finding lists and de-duplicate structurally
identical entries in first-seen order.  The source keys a `Map` by
`JSON.stringify` of each fixed-shape record, modelled as structural
equality. -/
def mergeFindings (entries : List (List Finding)) : List Finding :=
  dedupFirst entries.flatten

/-- `mergeRecommendations`: same flatten plus structural first-seen
de-duplication as `mergeFindings`. -/
def mergeRecommendations (entries : List (List Recommendation)) :
    List Recommendation :=
  dedupFirst entries.flatten

/-- Truthiness of the optional `exam.type` string used by
`extractions.find(item => item.exam.type)`: absent and empty strings are
falsy. -/
def examTypeTruthy (t : Option String) : Bool :=
  match t with
  | none => false
  | some s => decide (s ≠ "")

/-- `mergeRadiologyExtractions` (lines 268-299).  `dateParse` stands for the
environment's `Date.parse` used by `mergeComparisonDate`. -/
def mergeRadiologyExtractions (dateParse : String → Option Int)
    (extractions : List RadiologyExtraction) : RadiologyExtraction :=
  let summaryParts := mergeUniqueStrings (extractions.map (fun item => item.summary))
  let biradsValues :=
    (extractions.map (fun item => item.birads.value)).filterMap id
  let biradsValue : Option Int :=
    match biradsValues with
    | [] => none
    | v :: vs => some (vs.foldl max v)
  { summary :=
      if summaryParts.length > 1 then
        joinSep "\n" (summaryParts.map (fun item => "- " ++ item))
      else
        (summaryParts.head?).getD ""
    birads :=
      { value := biradsValue
        confidence :=
          mergeBiradsConfidence (extractions.map (fun item => item.birads.confidence))
        evidence :=
          mergeEvidence (extractions.map (fun item => some item.birads.evidence)) }
    breast_density :=
      { value :=
          mergeBreastDensity (extractions.map (fun item => item.breast_density.value))
        evidence :=
          mergeEvidence
            (extractions.map (fun item => some item.breast_density.evidence)) }
    exam :=
      { type :=
          match extractions.find? (fun item => examTypeTruthy item.exam.type) with
          | some found => found.exam.type
          | none => none
        laterality :=
          mergeLaterality (extractions.map (fun item => item.exam.laterality))
        evidence :=
          mergeEvidence (extractions.map (fun item => some item.exam.evidence)) }
    comparison :=
      { prior_exam_date :=
          mergeComparisonDate dateParse
            (extractions.map (fun item => item.comparison.prior_exam_date))
        evidence :=
          mergeEvidence
            (extractions.map (fun item => some item.comparison.evidence)) }
    findings := mergeFindings (extractions.map (fun item => item.findings))
    recommendations :=
      mergeRecommendations (extractions.map (fun item => item.recommendations))
    red_flags :=
      mergeUniqueStrings (extractions.map (fun item => item.red_flags)).flatten }

/-! ## PDF text-acquisition pipeline (`src/services/pdfService.ts`) -/

/-- One page of a loaded PDF, abstracted by the two texts the pipeline can
obtain from it: `textLayer` is the space-joined embedded text-layer content
returned by `extractTextFromPage`, and `ocrText` is the text the OCR engine
returns for the rendered page (`extractTextWithOcr`). -/
structure PdfPage where
  textLayer : String
  ocrText : String
deriving DecidableEq, Repr

/-- The page loop of `extractTextFromPdf` (lines 83-95): try the text layer
first; if its trim is truthy push it, otherwise invoke OCR and push the OCR
text when its trim is truthy.  Returns the accumulated `pageTexts` together
with the number of OCR invocations performed. -/
def extractLoop : List PdfPage → List String × Nat
  | [] => ([], 0)
  | page :: rest =>
    if jsTrim page.textLayer ≠ "" then
      let r := extractLoop rest
      (page.textLayer :: r.1, r.2)
    else
      let r := extractLoop rest
      if jsTrim page.ocrText ≠ "" then
        (page.ocrText :: r.1, r.2 + 1)
      else
        (r.1, r.2 + 1)

/-- `extractTextFromPdf` result: `pageTexts.join('\n\n').trim()`. -/
def extractTextFromPdf (pages : List PdfPage) : String :=
  jsTrim (joinSep "\n\n" (extractLoop pages).1)

/-- Number of OCR recognitions performed while extracting the document. -/
def ocrInvocations (pages : List PdfPage) : Nat :=
  (extractLoop pages).2

/-! ## OCR worker singleton (`getOcrWorker`, lines 27-40)

The module state holds the mutable `ocrWorkerPromise` binding (promises are
identified by the index of the `createWorker` call that produced them) and a
count of `createWorker` invocations.  JavaScript runs each invocation of
`getOcrWorker` up to its `return` without preemption: the `null` check and the
assignment of `ocrWorkerPromise` happen atomically before any `await`, so a
call racing with a pending creation observes the already-stored promise. -/

/-- Module-level mutable state of `pdfService.ts` relevant to the OCR
worker. -/
structure OcrModuleState where
  ocrWorkerPromise : Option Nat
  createWorkerCalls : Nat
deriving DecidableEq, Repr

/-- The module state at load time: no promise, no worker created. -/
def initialOcrModuleState : OcrModuleState :=
  { ocrWorkerPromise := none, createWorkerCalls := 0 }

/-- `getOcrWorker`: if `ocrWorkerPromise` is unset, invoke `createWorker`
(recording one more call) and store the resulting promise; in every case
return the stored promise. -/
def getOcrWorker (s : OcrModuleState) : Nat × OcrModuleState :=
  match s.ocrWorkerPromise with
  | some p => (p, s)
  | none =>
    (s.createWorkerCalls,
      { ocrWorkerPromise := some s.createWorkerCalls,
        createWorkerCalls := s.createWorkerCalls + 1 })

/-- A sequence of `n` consecutive `getOcrWorker` calls, returning the promises
handed out and the final module state. -/
def runGetOcrWorker : Nat → OcrModuleState → List Nat × OcrModuleState
  | 0, s => ([], s)
  | n + 1, s =>
    let first := getOcrWorker s
    let rest := runGetOcrWorker n first.2
    (first.1 :: rest.1, rest.2)

/-! ## Spec-modelled progress reporting

The shipped `pdfService.ts` variant with an `onProgress` observer is not part
of the provided sources: only its caller (`DocumentUploader.tsx`, which passes
a callback and consumes `PdfExtractionProgress` snapshots) and its tests
remain.  The emission schedule below is therefore modelled from the spec. -/

/-- Stage tag of a progress snapshot (`text` or `ocr`). -/
inductive ExtractionStage where
  | text
  | ocr
deriving DecidableEq, Repr

/-- A `PdfExtractionProgress` snapshot as consumed by `DocumentUploader.tsx`:
total page count, current page, pages processed via text layer, pages
processed via OCR, pages discovered to require OCR, and the current stage. -/
structure PdfExtractionProgress where
  totalPages : Nat
  currentPage : Nat
  textProcessed : Nat
  ocrProcessed : Nat
  ocrTotal : Nat
  stage : ExtractionStage
deriving DecidableEq, Repr

/-- The mutable counters threaded through one extraction run. -/
structure ProgressCounters where
  textProcessed : Nat
  ocrProcessed : Nat
  ocrTotal : Nat
deriving DecidableEq, Repr

/-- Modelled from the spec: the progress emissions for one page of the
extraction pipeline (spec section 4.4), which are missing from the provided
sources.  For page `n`: emit a `text`-stage snapshot, run the text-layer
extractor and emit with `textProcessed` incremented; when the page's text
layer is whitespace-only, additionally increment `ocrTotal`, emit an
`ocr`-stage snapshot, recognize, and emit with `ocrProcessed` incremented.
Returns the updated counters and the snapshots in emission order. -/
def pageProgressEvents (totalPages pageNumber : Nat) (page : PdfPage)
    (c : ProgressCounters) : ProgressCounters × List PdfExtractionProgress :=
  let ev1 : PdfExtractionProgress :=
    ⟨totalPages, pageNumber, c.textProcessed, c.ocrProcessed, c.ocrTotal,
      ExtractionStage.text⟩
  let c1 : ProgressCounters :=
    ⟨c.textProcessed + 1, c.ocrProcessed, c.ocrTotal⟩
  let ev2 : PdfExtractionProgress :=
    ⟨totalPages, pageNumber, c1.textProcessed, c1.ocrProcessed, c1.ocrTotal,
      ExtractionStage.text⟩
  if jsTrim page.textLayer ≠ "" then
    (c1, [ev1, ev2])
  else
    let c2 : ProgressCounters :=
      ⟨c1.textProcessed, c1.ocrProcessed, c1.ocrTotal + 1⟩
    let ev3 : PdfExtractionProgress :=
      ⟨totalPages, pageNumber, c2.textProcessed, c2.ocrProcessed, c2.ocrTotal,
        ExtractionStage.ocr⟩
    let c3 : ProgressCounters :=
      ⟨c2.textProcessed, c2.ocrProcessed + 1, c2.ocrTotal⟩
    let ev4 : PdfExtractionProgress :=
      ⟨totalPages, pageNumber, c3.textProcessed, c3.ocrProcessed, c3.ocrTotal,
        ExtractionStage.ocr⟩
    (c3, [ev1, ev2, ev3, ev4])

/-- Modelled from the spec: the page-by-page emission loop, pages processed in
increasing page-number order. -/
def progressTraceAux (totalPages : Nat) :
    Nat → ProgressCounters → List PdfPage → List PdfExtractionProgress
  | _, _, [] => []
  | pageNumber, c, page :: rest =>
    let r := pageProgressEvents totalPages pageNumber page c
    r.2 ++ progressTraceAux totalPages (pageNumber + 1) r.1 rest

/-- Modelled from the spec: the full sequence of progress snapshots emitted by
one extraction run, starting from zeroed counters at page 1. -/
def extractionProgressTrace (pages : List PdfPage) :
    List PdfExtractionProgress :=
  progressTraceAux pages.length 1 ⟨0, 0, 0⟩ pages

/-! ## Radiology extraction entry point
(`src/services/openaiService.ts`, `summarizeRadiologyReportJson`) -/

/-- An error thrown inside the `try` body: provider HTTP errors carry a
status, internal `Error`s do not. -/
structure ThrownError where
  status : Option Nat
  message : String
deriving DecidableEq, Repr

/-- Outcome of the single `openai.responses.create` call: a resolved response
with its `output_text`, a rejected HTTP error with a status, or another
provider failure with a message. -/
inductive ProviderOutcome where
  | ok (outputText : String)
  | httpError (status : Nat) (message : String)
  | failure (message : String)
deriving DecidableEq, Repr

/-- The `try` body of `summarizeRadiologyReportJson` (lines 125-141 and the
provider call): construct the client (which throws when no API key is
configured), reject texts whose trim is shorter than 50 characters, then call
the provider and reject an empty `output_text`.  The successful payload is the
trimmed JSON text handed to `JSON.parse`.  The `Bool` records whether the
provider was invoked. -/
def radiologyTryBody (apiKeyConfigured : Bool) (reportText : String)
    (provider : ProviderOutcome) : Bool × Except ThrownError String :=
  if ¬apiKeyConfigured then
    (false, Except.error ⟨none,
      "OpenAI API key not found. Please add VITE_OPENAI_API_KEY to your environment variables."⟩)
  else if reportText = "" ∨ (jsTrim reportText).length < 50 then
    (false, Except.error ⟨none,
      "Radiology report text is too short to summarize."⟩)
  else
    match provider with
    | ProviderOutcome.ok outputText =>
      if jsTrim outputText = "" then
        (true, Except.error ⟨none, "No structured output returned from OpenAI."⟩)
      else
        (true, Except.ok (jsTrim outputText))
    | ProviderOutcome.httpError status message =>
      (true, Except.error ⟨some status, message⟩)
    | ProviderOutcome.failure message =>
      (true, Except.error ⟨none, message⟩)

/-- The `catch` clause of `summarizeRadiologyReportJson`: map the status codes
401/429/402 to their dedicated messages and wrap everything else in
`Failed to extract radiology report: ...` (with `Unknown error` for an empty
message). -/
def radiologyCatchMessage (e : ThrownError) : String :=
  if e.status = some 401 then
    "Invalid OpenAI API key."
  else if e.status = some 429 then
    "OpenAI API rate limit exceeded."
  else if e.status = some 402 then
    "OpenAI API quota exceeded."
  else
    "Failed to extract radiology report: " ++
      (if e.message = "" then "Unknown error" else e.message)

/-- `summarizeRadiologyReportJson` as observed by its caller: whether the
provider was invoked, and either the parsed-payload text or the message of the
error the promise rejects with. -/
def summarizeRadiologyReportJson (apiKeyConfigured : Bool)
    (reportText : String) (provider : ProviderOutcome) :
    Bool × Except String String :=
  let r := radiologyTryBody apiKeyConfigured reportText provider
  match r.2 with
  | Except.ok payload => (r.1, Except.ok payload)
  | Except.error e => (r.1, Except.error (radiologyCatchMessage e))

/-! ## Batch loops (`DocumentUploader.tsx`) -/

/-- One file handed to `handleFiles`, abstracted by its name and the outcome
of awaiting `extractTextFromPdf` on it (`Except.error` is a rejected
promise). -/
structure UploadInput where
  name : String
  extraction : Except Unit String
deriving Repr

/-- The extraction loop of `handleFiles` (lines 76-92) together with its
surrounding `try`: files are processed in order, empty-trim contents are
recorded in `emptyFiles` and skipped, and a rejected extraction escapes the
loop to the `catch`, discarding all accumulated files.  The value is
`(processedFiles, emptyFiles)` on success. -/
def handleFilesLoop :
    List UploadInput → Except Unit (List (String × String) × List String)
  | [] => Except.ok ([], [])
  | f :: rest =>
    match f.extraction with
    | Except.error _ => Except.error ()
    | Except.ok content =>
      if jsTrim content = "" then
        match handleFilesLoop rest with
        | Except.error e => Except.error e
        | Except.ok r => Except.ok (r.1, f.name :: r.2)
      else
        match handleFilesLoop rest with
        | Except.error e => Except.error e
        | Except.ok r => Except.ok ((f.name, content) :: r.1, r.2)

/-- One uploaded file handed to `generateSummaries`, abstracted by its name,
extracted content and the outcome of awaiting `summarizeDocument` on it. -/
structure SummaryInput where
  name : String
  content : String
  summaryResult : Except Unit String
deriving Repr

/-- The per-file loop of `generateSummaries` (lines 154-167): each file's
summarization is wrapped in its own `try`/`catch`, so a failure only skips
that file and the loop continues with the siblings. -/
def generateSummariesLoop : List SummaryInput → List (String × String × String)
  | [] => []
  | f :: rest =>
    match f.summaryResult with
    | Except.ok s => (f.name, f.content, s) :: generateSummariesLoop rest
    | Except.error _ => generateSummariesLoop rest

/-- The per-file loop of the multi-document branch of
`generateRadiologyBatchSummary` (lines 369-376): each file's structured
extraction is wrapped in its own `try`/`catch`; failures are logged and
skipped. -/
def radiologyBatchLoop :
    List (Except Unit RadiologyExtraction) → List RadiologyExtraction
  | [] => []
  | Except.ok e :: rest => e :: radiologyBatchLoop rest
  | Except.error _ :: rest => radiologyBatchLoop rest

/-! ## Helper lemmas -/

lemma mem_insertUnique [DecidableEq α] (acc : List α) (x a : α) :
    a ∈ insertUnique acc x ↔ a ∈ acc ∨ a = x := by
  unfold insertUnique
  split
  · rename_i hx
    constructor
    · exact fun h => Or.inl h
    · rintro (h | rfl)
      · exact h
      · exact hx
  · simp [List.mem_append]

lemma mem_foldl_insertUnique [DecidableEq α] (xs : List α) (acc : List α)
    (a : α) : a ∈ xs.foldl insertUnique acc ↔ a ∈ acc ∨ a ∈ xs := by
  induction xs generalizing acc with
  | nil => simp
  | cons x xs ih =>
    simp only [List.foldl_cons, ih, mem_insertUnique, List.mem_cons]
    tauto

lemma mem_dedupFirst [DecidableEq α] (xs : List α) (a : α) :
    a ∈ dedupFirst xs ↔ a ∈ xs := by
  simp [dedupFirst, mem_foldl_insertUnique]

lemma foldl_insertUnique_of_subset [DecidableEq α] (xs acc : List α)
    (h : ∀ a ∈ xs, a ∈ acc) : xs.foldl insertUnique acc = acc := by
  induction xs generalizing acc with
  | nil => rfl
  | cons x xs ih =>
    have hx : insertUnique acc x = acc := if_pos (h x (List.mem_cons_self x xs))
    simp only [List.foldl_cons, hx]
    exact ih acc (fun a ha => h a (List.mem_cons_of_mem x ha))

lemma dedupFirst_append_self [DecidableEq α] (xs : List α) :
    dedupFirst (xs ++ xs) = dedupFirst xs := by
  unfold dedupFirst
  rw [List.foldl_append]
  exact foldl_insertUnique_of_subset xs _
    (fun a ha => (mem_foldl_insertUnique xs [] a).mpr (Or.inr ha))

lemma foldl_insertUnique_of_nodup [DecidableEq α] (xs : List α) :
    ∀ acc : List α, xs.Nodup → (∀ a ∈ xs, a ∉ acc) →
      xs.foldl insertUnique acc = acc ++ xs := by
  induction xs with
  | nil => intro acc _ _; simp
  | cons x xs ih =>
    intro acc hnd hdis
    have hx : insertUnique acc x = acc ++ [x] :=
      if_neg (hdis x (List.mem_cons_self x xs))
    simp only [List.foldl_cons, hx]
    rw [ih (acc ++ [x]) hnd.of_cons]
    · simp
    · intro a ha
      simp only [List.mem_append, List.mem_singleton]
      rintro (h | rfl)
      · exact hdis a (List.mem_cons_of_mem x ha) h
      · exact (List.nodup_cons.mp hnd).1 ha

lemma dedupFirst_of_nodup [DecidableEq α] (xs : List α) (h : xs.Nodup) :
    dedupFirst xs = xs := by
  unfold dedupFirst
  rw [foldl_insertUnique_of_nodup xs [] h (fun a _ => List.not_mem_nil a)]
  simp

lemma self_le_foldl_max (vs : List Int) (v : Int) : v ≤ vs.foldl max v := by
  induction vs generalizing v with
  | nil => exact le_refl v
  | cons w vs ih =>
    exact le_trans (le_max_left v w) (ih (max v w))

lemma le_foldl_max_of_mem (vs : List Int) (v w : Int) (h : w ∈ vs) :
    w ≤ vs.foldl max v := by
  induction vs generalizing v with
  | nil => cases h
  | cons u vs ih =>
    rcases List.mem_cons.mp h with rfl | h2
    · exact le_trans (le_max_right v w) (self_le_foldl_max vs (max v w))
    · exact ih (max v u) h2

lemma foldl_max_mem (vs : List Int) (v : Int) :
    vs.foldl max v = v ∨ vs.foldl max v ∈ vs := by
  induction vs generalizing v with
  | nil => exact Or.inl rfl
  | cons w vs ih =>
    simp only [List.foldl_cons]
    rcases ih (max v w) with h | h
    · rcases max_choice v w with hm | hm
      · exact Or.inl (h.trans hm)
      · exact Or.inr (by rw [h, hm]; exact List.mem_cons_self w vs)
    · exact Or.inr (List.mem_cons_of_mem w h)

/-! ## Claim C1 -/

lemma merged_birads_value_eq (dateParse : String → Option Int)
    (es : List RadiologyExtraction) :
    (mergeRadiologyExtractions dateParse es).birads.value =
      match (es.map (fun item => item.birads.value)).filterMap id with
      | [] => none
      | v :: vs => some (vs.foldl max v) := rfl

/-- C1: for every non-empty sequence of extractions, the merged
`birads.value` is absent exactly when no input carries a numeric value, and
any merged numeric value is one of the inputs' numeric values and dominates
all of them (it is their maximum); in particular merging inputs with values
2 and 4 yields 4. -/
theorem merged_birads_value_is_max_numeric :
    (∀ (dateParse : String → Option Int) (es : List RadiologyExtraction),
      es ≠ [] →
      (((mergeRadiologyExtractions dateParse es).birads.value = none ↔
          (es.map (fun item => item.birads.value)).filterMap id = []) ∧
        ∀ v : Int,
          (mergeRadiologyExtractions dateParse es).birads.value = some v →
          v ∈ (es.map (fun item => item.birads.value)).filterMap id ∧
            ∀ w ∈ (es.map (fun item => item.birads.value)).filterMap id,
              w ≤ v)) ∧
    ∀ (dateParse : String → Option Int) (e1 e2 : RadiologyExtraction),
      e1.birads.value = some 2 → e2.birads.value = some 4 →
      (mergeRadiologyExtractions dateParse [e1, e2]).birads.value = some 4 := by
  constructor
  · intro dateParse es _
    rw [merged_birads_value_eq]
    generalize (es.map (fun item => item.birads.value)).filterMap id = numeric
    rcases numeric with _ | ⟨v, vs⟩
    · exact ⟨by simp, fun v hv => by cases hv⟩
    · constructor
      · simp
      · intro u hu
        injection hu with hu
        subst hu
        constructor
        · rcases foldl_max_mem vs v with h2 | h2
          · rw [h2]
            exact List.mem_cons_self v vs
          · exact List.mem_cons_of_mem v h2
        · intro w hw
          rcases List.mem_cons.mp hw with rfl | h2
          · exact self_le_foldl_max vs w
          · exact le_foldl_max_of_mem vs v w h2
  · intro dateParse e1 e2 h1 h2
    rw [merged_birads_value_eq]
    simp [h1, h2]

/-- An extraction whose only payload is a BI-RADS value of 2. -/
def biradsTwoExtraction : RadiologyExtraction :=
  ⟨"", ⟨some 2, Confidence.low, []⟩, ⟨none, []⟩, ⟨none, none, []⟩,
    ⟨none, []⟩, [], [], []⟩

/-- An extraction whose only payload is a BI-RADS value of 4. -/
def biradsFourExtraction : RadiologyExtraction :=
  ⟨"", ⟨some 4, Confidence.low, []⟩, ⟨none, []⟩, ⟨none, none, []⟩,
    ⟨none, []⟩, [], [], []⟩

/-- Witness for C1: merging concrete extractions with BI-RADS values 2 and 4
yields 4. -/
theorem merged_birads_value_is_max_numeric_witness :
    biradsTwoExtraction.birads.value = some 2 ∧
    biradsFourExtraction.birads.value = some 4 ∧
    (mergeRadiologyExtractions (fun _ => none)
        [biradsTwoExtraction, biradsFourExtraction]).birads.value = some 4 :=
  ⟨rfl, rfl,
    merged_birads_value_is_max_numeric.2 (fun _ => none) biradsTwoExtraction
      biradsFourExtraction rfl rfl⟩

/-! ## Claim C2 -/

lemma merged_laterality_eq (dateParse : String → Option Int)
    (es : List RadiologyExtraction) :
    (mergeRadiologyExtractions dateParse es).exam.laterality =
      mergeLaterality (es.map (fun item => item.exam.laterality)) := rfl

/-- C2: the merged `exam.laterality` is `bilateral` when some input says
bilateral or when some input says left and another says right; otherwise it
is the first non-absent value in input order (never `bilateral` there), and
absent when no input supplies one.  The merged record delegates to
`mergeLaterality`, and the left-plus-right scenario yields `bilateral`. -/
theorem merged_laterality_policy :
    (∀ values : List (Option Laterality),
      ((Laterality.bilateral ∈ values.filterMap id ∨
          (Laterality.left ∈ values.filterMap id ∧
            Laterality.right ∈ values.filterMap id)) →
        mergeLaterality values = some Laterality.bilateral) ∧
      (¬(Laterality.bilateral ∈ values.filterMap id ∨
          (Laterality.left ∈ values.filterMap id ∧
            Laterality.right ∈ values.filterMap id)) →
        mergeLaterality values = (values.filterMap id).head? ∧
          ∀ v, mergeLaterality values = some v → v ≠ Laterality.bilateral) ∧
      (values.filterMap id = [] → mergeLaterality values = none)) ∧
    (∀ (dateParse : String → Option Int) (es : List RadiologyExtraction),
      (mergeRadiologyExtractions dateParse es).exam.laterality =
        mergeLaterality (es.map (fun item => item.exam.laterality))) ∧
    ∀ (dateParse : String → Option Int) (e1 e2 : RadiologyExtraction),
      e1.exam.laterality = some Laterality.left →
      e2.exam.laterality = some Laterality.right →
      (mergeRadiologyExtractions dateParse [e1, e2]).exam.laterality =
        some Laterality.bilateral := by
  refine ⟨fun values => ⟨?_, ?_, ?_⟩, fun dateParse es => rfl, ?_⟩
  · intro h
    simp only [mergeLaterality]
    rcases h with hb | ⟨hl, hr⟩
    · rw [if_pos hb]
    · by_cases hb : Laterality.bilateral ∈ values.filterMap id
      · rw [if_pos hb]
      · rw [if_neg hb, if_pos ⟨hl, hr⟩]
  · intro h
    obtain ⟨hb, hlr⟩ := not_or.mp h
    simp only [mergeLaterality]
    rw [if_neg hb, if_neg hlr]
    refine ⟨rfl, ?_⟩
    intro v hv
    have hmem : v ∈ values.filterMap id :=
      List.mem_of_mem_head? (Option.mem_def.mpr hv)
    rintro rfl
    exact hb hmem
  · intro h
    simp only [mergeLaterality]
    have hb : Laterality.bilateral ∉ values.filterMap id := by
      rw [h]
      exact List.not_mem_nil _
    have hlr :
        ¬(Laterality.left ∈ values.filterMap id ∧
          Laterality.right ∈ values.filterMap id) := by
      rw [h]
      simp
    rw [if_neg hb, if_neg hlr, h]
    rfl
  · intro dateParse e1 e2 h1 h2
    rw [merged_laterality_eq]
    simp [mergeLaterality, h1, h2]

/-- An extraction whose only payload is a left exam laterality. -/
def lateralityLeftExtraction : RadiologyExtraction :=
  ⟨"", ⟨none, Confidence.low, []⟩, ⟨none, []⟩,
    ⟨none, some Laterality.left, []⟩, ⟨none, []⟩, [], [], []⟩

/-- An extraction whose only payload is a right exam laterality. -/
def lateralityRightExtraction : RadiologyExtraction :=
  ⟨"", ⟨none, Confidence.low, []⟩, ⟨none, []⟩,
    ⟨none, some Laterality.right, []⟩, ⟨none, []⟩, [], [], []⟩

/-- Witness for C2: merging a concrete left-sided extraction with a
right-sided one yields `bilateral`. -/
theorem merged_laterality_policy_witness :
    lateralityLeftExtraction.exam.laterality = some Laterality.left ∧
    lateralityRightExtraction.exam.laterality = some Laterality.right ∧
    (mergeRadiologyExtractions (fun _ => none)
        [lateralityLeftExtraction, lateralityRightExtraction]).exam.laterality =
      some Laterality.bilateral :=
  ⟨rfl, rfl,
    merged_laterality_policy.2.2 (fun _ => none) lateralityLeftExtraction
      lateralityRightExtraction rfl rfl⟩

/-! ## Claim C3 -/

/-- C3: the number of OCR invocations is exactly the number of pages whose
text-layer result trims to empty; a page with non-whitespace text-layer
content contributes its text-layer directly; and when every page has
non-whitespace embedded text, OCR is never invoked and the accumulator is
exactly the pages' text layers. -/
theorem ocr_invoked_iff_text_layer_blank :
    ∀ pages : List PdfPage,
      ocrInvocations pages =
        (pages.filter (fun p => decide (jsTrim p.textLayer = ""))).length ∧
      ((∀ p ∈ pages, jsTrim p.textLayer ≠ "") →
        ocrInvocations pages = 0 ∧
        (extractLoop pages).1 = pages.map (fun p => p.textLayer)) := by
  intro pages
  induction pages with
  | nil => exact ⟨rfl, fun _ => ⟨rfl, rfl⟩⟩
  | cons page rest ih =>
    constructor
    · show (extractLoop (page :: rest)).2 = _
      unfold extractLoop
      by_cases h : jsTrim page.textLayer ≠ ""
      · rw [if_pos h]
        have hfilter : decide (jsTrim page.textLayer = "") = false := by
          simp [h]
        simp only [List.filter_cons, hfilter]
        exact ih.1
      · rw [if_neg h]
        push_neg at h
        have hfilter : decide (jsTrim page.textLayer = "") = true := by
          simp [h]
        simp only [List.filter_cons, hfilter, List.length_cons]
        by_cases h2 : jsTrim page.ocrText ≠ ""
        · rw [if_pos h2]
          simpa using ih.1
        · rw [if_neg h2]
          simpa using ih.1
    · intro hall
      have hpage : jsTrim page.textLayer ≠ "" :=
        hall page (List.mem_cons_self page rest)
      have hrest := ih.2 (fun p hp => hall p (List.mem_cons_of_mem page hp))
      constructor
      · show (extractLoop (page :: rest)).2 = 0
        unfold extractLoop
        rw [if_pos hpage]
        exact hrest.1
      · show (extractLoop (page :: rest)).1 = _
        unfold extractLoop
        rw [if_pos hpage]
        simp only [List.map_cons]
        exact congrArg (page.textLayer :: ·) hrest.2

/-- Witness for C3: a one-page PDF with embedded text never invokes OCR. -/
theorem ocr_invoked_iff_text_layer_blank_witness :
    (∀ p ∈ [PdfPage.mk "Hello from PDF" ""], jsTrim p.textLayer ≠ "") ∧
    ocrInvocations [PdfPage.mk "Hello from PDF" ""] = 0 :=
  ⟨by decide,
    ((ocr_invoked_iff_text_layer_blank [PdfPage.mk "Hello from PDF" ""]).2
      (by decide)).1⟩

/-! ## Claim C4 -/

/-- C4: the document content is the accumulated page texts joined with the
blank-line separator and trimmed; an empty accumulator yields the empty
string (not an error value), and a single accumulated page text yields that
text trimmed with no separator. -/
theorem document_join_and_trim :
    ∀ pages : List PdfPage,
      extractTextFromPdf pages = jsTrim (joinSep "\n\n" (extractLoop pages).1) ∧
      ((extractLoop pages).1 = [] → extractTextFromPdf pages = "") ∧
      ∀ t : String, (extractLoop pages).1 = [t] →
        extractTextFromPdf pages = jsTrim t := by
  intro pages
  refine ⟨rfl, ?_, ?_⟩
  · intro h
    show jsTrim (joinSep "\n\n" (extractLoop pages).1) = ""
    rw [h]
    rfl
  · intro t h
    show jsTrim (joinSep "\n\n" (extractLoop pages).1) = jsTrim t
    rw [h]
    rfl

/-- Witness for C4: a PDF whose single page carries padded embedded text
yields that page's text trimmed, and a PDF with no contributing page yields
the empty string. -/
theorem document_join_and_trim_witness :
    ((extractLoop [PdfPage.mk "  Hello  " ""]).1 = ["  Hello  "] ∧
      extractTextFromPdf [PdfPage.mk "  Hello  " ""] = jsTrim "  Hello  ") ∧
    ((extractLoop ([] : List PdfPage)).1 = [] ∧
      extractTextFromPdf ([] : List PdfPage) = "") :=
  ⟨⟨by decide,
      (document_join_and_trim [PdfPage.mk "  Hello  " ""]).2.2 "  Hello  "
        (by decide)⟩,
    ⟨rfl, (document_join_and_trim []).2.1 rfl⟩⟩

/-! ## Claim C5 -/

lemma runGetOcrWorker_after_creation (n : Nat) :
    runGetOcrWorker n ⟨some 0, 1⟩ = (List.replicate n 0, ⟨some 0, 1⟩) := by
  induction n with
  | zero => rfl
  | succ n ih =>
    show (0 :: (runGetOcrWorker n ⟨some 0, 1⟩).1,
      (runGetOcrWorker n ⟨some 0, 1⟩).2) = _
    rw [ih]
    rfl

/-- C5: starting from the module's initial state, any sequence of
`getOcrWorker` calls invokes `createWorker` at most once, and every call
returns the one promise created by the first call. -/
theorem ocr_worker_created_at_most_once :
    ∀ n : Nat,
      (runGetOcrWorker n initialOcrModuleState).2.createWorkerCalls ≤ 1 ∧
      (runGetOcrWorker n initialOcrModuleState).1 = List.replicate n 0 := by
  intro n
  cases n with
  | zero => exact ⟨Nat.zero_le 1, rfl⟩
  | succ n =>
    have hfirst : getOcrWorker initialOcrModuleState = (0, ⟨some 0, 1⟩) := rfl
    have hrun : runGetOcrWorker (n + 1) initialOcrModuleState =
        (0 :: (runGetOcrWorker n ⟨some 0, 1⟩).1,
          (runGetOcrWorker n ⟨some 0, 1⟩).2) := rfl
    rw [hrun, runGetOcrWorker_after_creation n]
    exact ⟨le_refl 1, rfl⟩

/-! ## Claim C6 -/

/-- A finding used to build the C6 inputs. -/
def calcificationFinding : Finding :=
  ⟨FindingLaterality.left, some "upper outer quadrant",
    "Benign calcifications.", Assessment.benign, ["Calcifications"]⟩

/-- An extraction whose findings list already repeats the same entry. -/
def extractionWithRepeatedFinding : RadiologyExtraction :=
  ⟨"Radiology summary.", ⟨some 2, Confidence.medium, ["BI-RADS 2"]⟩,
    ⟨some Density.B, ["Density B"]⟩,
    ⟨some "screening", some Laterality.bilateral, ["Screening"]⟩,
    ⟨some "2023-01-01", ["Prior exam"]⟩,
    [calcificationFinding, calcificationFinding], [], []⟩

/-- Counterexample to C6 as stated: for an extraction `A` whose findings list
itself contains a structural repeat, merging `[A, A]` de-duplicates the
repeat, so the merged findings differ from `A.findings`. -/
theorem merge_duplicate_findings_counterexample :
    (mergeRadiologyExtractions (fun _ => none)
        [extractionWithRepeatedFinding, extractionWithRepeatedFinding]).findings ≠
      extractionWithRepeatedFinding.findings := by
  decide

/-- C6 (amended): merging the duplicated list `[A, A]` yields `A.findings`
with structurally identical repeats removed in first-seen order; this equals
`A.findings` itself exactly when `A.findings` contains no structural
repeats. -/
theorem merge_duplicate_dedups_findings :
    ∀ (dateParse : String → Option Int) (A : RadiologyExtraction),
      (mergeRadiologyExtractions dateParse [A, A]).findings =
        dedupFirst A.findings ∧
      (A.findings.Nodup →
        (mergeRadiologyExtractions dateParse [A, A]).findings = A.findings) := by
  intro dateParse A
  have h : (mergeRadiologyExtractions dateParse [A, A]).findings =
      dedupFirst (A.findings ++ A.findings) := by
    show mergeFindings [A.findings, A.findings] = _
    unfold mergeFindings
    simp [List.flatten]
  rw [h, dedupFirst_append_self]
  exact ⟨rfl, fun hnd => dedupFirst_of_nodup A.findings hnd⟩

/-- An extraction with a duplicate-free findings list. -/
def extractionWithDistinctFinding : RadiologyExtraction :=
  ⟨"Radiology summary.", ⟨some 2, Confidence.medium, ["BI-RADS 2"]⟩,
    ⟨some Density.B, ["Density B"]⟩,
    ⟨some "screening", some Laterality.bilateral, ["Screening"]⟩,
    ⟨some "2023-01-01", ["Prior exam"]⟩, [calcificationFinding], [], []⟩

/-- Witness for the amended C6: for a concrete extraction with a
duplicate-free findings list, merging the duplicated pair leaves the findings
unchanged. -/
theorem merge_duplicate_dedups_findings_witness :
    extractionWithDistinctFinding.findings.Nodup ∧
    (mergeRadiologyExtractions (fun _ => none)
        [extractionWithDistinctFinding, extractionWithDistinctFinding]).findings =
      extractionWithDistinctFinding.findings :=
  ⟨List.nodup_singleton calcificationFinding,
    (merge_duplicate_dedups_findings (fun _ => none)
        extractionWithDistinctFinding).2
      (List.nodup_singleton calcificationFinding)⟩

/-! ## Claim C7 -/

lemma mem_mergeEvidence (entries : List (Option (List String)))
    (l : List String) (s : String) (hl : some l ∈ entries) (hs : s ∈ l)
    (hne : jsTrim s ≠ "") : jsTrim s ∈ mergeEvidence entries := by
  unfold mergeEvidence mergeUniqueStrings
  rw [mem_dedupFirst]
  rw [List.mem_filter]
  constructor
  · rw [List.mem_map]
    refine ⟨s, ?_, rfl⟩
    rw [List.mem_flatten]
    refine ⟨l, ?_, hs⟩
    rw [List.mem_map]
    exact ⟨some l, hl, rfl⟩
  · simpa using hne

/-- An extraction whose BI-RADS evidence string carries surrounding
whitespace. -/
def untrimmedEvidenceExtraction : RadiologyExtraction :=
  ⟨"", ⟨none, Confidence.low, [" a "]⟩, ⟨none, []⟩, ⟨none, none, []⟩,
    ⟨none, []⟩, [], [], []⟩

/-- Counterexample to C7 as stated: an input evidence string with surrounding
whitespace is not an element of the merged evidence (only its trimmed form
is), so the merged evidence is not a superset of the input evidence as sets
of strings. -/
theorem evidence_superset_counterexample :
    " a " ∈ untrimmedEvidenceExtraction.birads.evidence ∧
    " a " ∉ (mergeRadiologyExtractions (fun _ => none)
        [untrimmedEvidenceExtraction]).birads.evidence := by
  constructor
  · decide
  · decide

/-- C7 (amended): for every input of the merge and every evidence string of
that input at one of the evidence-merged fields (`birads`, `breast_density`,
`exam`, `comparison`), the trimmed form of the string — when non-empty —
appears in the merged evidence at that field.  (Whitespace-only strings are
discarded and surrounding whitespace is removed, which is the only departure
from the plain superset reading.) -/
theorem merged_evidence_contains_trimmed_inputs :
    ∀ (dateParse : String → Option Int) (es : List RadiologyExtraction)
      (x : RadiologyExtraction), x ∈ es → ∀ s : String, jsTrim s ≠ "" →
      ((s ∈ x.birads.evidence →
          jsTrim s ∈ (mergeRadiologyExtractions dateParse es).birads.evidence) ∧
        (s ∈ x.breast_density.evidence →
          jsTrim s ∈
            (mergeRadiologyExtractions dateParse es).breast_density.evidence) ∧
        (s ∈ x.exam.evidence →
          jsTrim s ∈ (mergeRadiologyExtractions dateParse es).exam.evidence) ∧
        (s ∈ x.comparison.evidence →
          jsTrim s ∈
            (mergeRadiologyExtractions dateParse es).comparison.evidence)) := by
  intro dateParse es x hx s hne
  refine ⟨fun hs => ?_, fun hs => ?_, fun hs => ?_, fun hs => ?_⟩
  · exact mem_mergeEvidence _ x.birads.evidence s
      (List.mem_map_of_mem (fun item => some item.birads.evidence) hx) hs hne
  · exact mem_mergeEvidence _ x.breast_density.evidence s
      (List.mem_map_of_mem (fun item => some item.breast_density.evidence) hx)
      hs hne
  · exact mem_mergeEvidence _ x.exam.evidence s
      (List.mem_map_of_mem (fun item => some item.exam.evidence) hx) hs hne
  · exact mem_mergeEvidence _ x.comparison.evidence s
      (List.mem_map_of_mem (fun item => some item.comparison.evidence) hx) hs
      hne

/-- Witness for the amended C7: the trimmed form of the concrete evidence
string `" a "` appears in the merged BI-RADS evidence. -/
theorem merged_evidence_contains_trimmed_inputs_witness :
    untrimmedEvidenceExtraction ∈ [untrimmedEvidenceExtraction] ∧
    jsTrim " a " ≠ "" ∧
    jsTrim " a " ∈ (mergeRadiologyExtractions (fun _ => none)
        [untrimmedEvidenceExtraction]).birads.evidence :=
  ⟨List.mem_singleton_self untrimmedEvidenceExtraction, by decide,
    (merged_evidence_contains_trimmed_inputs (fun _ => none)
        [untrimmedEvidenceExtraction] untrimmedEvidenceExtraction
        (List.mem_singleton_self untrimmedEvidenceExtraction) " a "
        (by decide)).1 (by decide)⟩

/-! ## Claim C8 -/

/-- Counterexample to C8 as stated: in the text-extraction loop of
`handleFiles` a rejected extraction is only caught outside the loop, so a
batch whose first file fails returns no partial success even though the
second file extracts fine. -/
theorem extraction_error_aborts_batch_counterexample :
    handleFilesLoop
        [⟨"a.pdf", Except.error ()⟩, ⟨"b.pdf", Except.ok "Hello"⟩] =
      Except.error () ∧
    ∀ r, handleFilesLoop
        [⟨"a.pdf", Except.error ()⟩, ⟨"b.pdf", Except.ok "Hello"⟩] ≠
      Except.ok r := by
  refine ⟨rfl, ?_⟩
  intro r h
  rw [show handleFilesLoop
      [⟨"a.pdf", Except.error ()⟩, ⟨"b.pdf", Except.ok "Hello"⟩] =
    Except.error () from rfl] at h
  cases h

lemma handleFilesLoop_ok_of_all_ok (files : List UploadInput)
    (h : ∀ g ∈ files, ∃ d, g.extraction = Except.ok d) :
    ∃ r, handleFilesLoop files = Except.ok r := by
  induction files with
  | nil => exact ⟨([], []), rfl⟩
  | cons g rest ih =>
    obtain ⟨d, hd⟩ := h g (List.mem_cons_self g rest)
    obtain ⟨r, hr⟩ := ih (fun g2 hg2 => h g2 (List.mem_cons_of_mem g hg2))
    unfold handleFilesLoop
    rw [hd, hr]
    dsimp only
    by_cases he : jsTrim d = ""
    · rw [if_pos he]
      exact ⟨(r.1, g.name :: r.2), rfl⟩
    · rw [if_neg he]
      exact ⟨((g.name, d) :: r.1, r.2), rfl⟩

/-- C8 (amended): in the per-document summarization loop and the radiology
extraction loop a failing document is skipped and every succeeding sibling
still contributes; in the text-extraction loop of `handleFiles` an
empty-text result does not abort siblings either, but a rejected extraction
aborts the whole batch (shown by the counterexample), so sibling
independence there holds only when no file's extraction rejects. -/
theorem per_document_failures_skip_only_that_document :
    (∀ (files : List SummaryInput) (f : SummaryInput), f ∈ files →
      ∀ s, f.summaryResult = Except.ok s →
        (f.name, f.content, s) ∈ generateSummariesLoop files) ∧
    (∀ (rs : List (Except Unit RadiologyExtraction))
      (e : RadiologyExtraction), Except.ok e ∈ rs →
        e ∈ radiologyBatchLoop rs) ∧
    ∀ (files : List UploadInput) (f : UploadInput) (c : String),
      f ∈ files → f.extraction = Except.ok c → jsTrim c ≠ "" →
      (∀ g ∈ files, ∃ d, g.extraction = Except.ok d) →
      ∃ ps emptyNames,
        handleFilesLoop files = Except.ok (ps, emptyNames) ∧
          (f.name, c) ∈ ps := by
  refine ⟨?_, ?_, ?_⟩
  · intro files
    induction files with
    | nil => intro f hf; cases hf
    | cons g rest ih =>
      intro f hf s hs
      rcases List.mem_cons.mp hf with rfl | hf2
      · unfold generateSummariesLoop
        rw [hs]
        exact List.mem_cons_self _ _
      · unfold generateSummariesLoop
        rcases hg : g.summaryResult with _ | s2
        · exact ih f hf2 s hs
        · exact List.mem_cons_of_mem _ (ih f hf2 s hs)
  · intro rs
    induction rs with
    | nil => intro e he; cases he
    | cons r rest ih =>
      intro e he
      rcases List.mem_cons.mp he with heq | he2
      · rw [← heq]
        exact List.mem_cons_self _ _
      · rcases r with _ | e2
        · exact ih e he2
        · exact List.mem_cons_of_mem _ (ih e he2)
  · intro files
    induction files with
    | nil => intro f c hf; cases hf
    | cons g rest ih =>
      intro f c hf hfc hfne hall
      obtain ⟨d, hd⟩ := hall g (List.mem_cons_self g rest)
      obtain ⟨r, hr⟩ := handleFilesLoop_ok_of_all_ok rest
        (fun g2 hg2 => hall g2 (List.mem_cons_of_mem g hg2))
      rcases List.mem_cons.mp hf with rfl | hf2
      · rw [hfc] at hd
        injection hd with hd
        subst hd
        refine ⟨(f.name, c) :: r.1, r.2, ?_, List.mem_cons_self _ _⟩
        unfold handleFilesLoop
        rw [hfc, hr]
        dsimp only
        rw [if_neg hfne]
      · obtain ⟨ps, emptyNames, hps, hmem⟩ :=
          ih f c hf2 hfc hfne (fun g2 hg2 => hall g2 (List.mem_cons_of_mem g hg2))
        unfold handleFilesLoop
        rw [hd, hps]
        dsimp only
        by_cases he : jsTrim d = ""
        · rw [if_pos he]
          exact ⟨ps, g.name :: emptyNames, rfl, hmem⟩
        · rw [if_neg he]
          exact ⟨(g.name, d) :: ps, emptyNames, rfl,
            List.mem_cons_of_mem _ hmem⟩

/-- Witness for the amended C8: concrete batches in which one document fails
while its sibling still contributes. -/
theorem per_document_failures_skip_only_that_document_witness :
    (("doc1", "content one", "summary one") ∈ generateSummariesLoop
        [⟨"bad", "broken", Except.error ()⟩,
          ⟨"doc1", "content one", Except.ok "summary one"⟩]) ∧
    (biradsTwoExtraction ∈ radiologyBatchLoop
        [Except.error (), Except.ok biradsTwoExtraction]) ∧
    ∃ ps emptyNames,
      handleFilesLoop [⟨"empty.pdf", Except.ok "  "⟩,
          ⟨"good.pdf", Except.ok "Hello"⟩] =
        Except.ok (ps, emptyNames) ∧ ("good.pdf", "Hello") ∈ ps := by
  refine ⟨?_, ?_, ?_⟩
  · exact per_document_failures_skip_only_that_document.1
      [⟨"bad", "broken", Except.error ()⟩,
        ⟨"doc1", "content one", Except.ok "summary one"⟩]
      ⟨"doc1", "content one", Except.ok "summary one"⟩
      (by simp) "summary one" rfl
  · exact per_document_failures_skip_only_that_document.2.1
      [Except.error (), Except.ok biradsTwoExtraction] biradsTwoExtraction
      (by simp)
  · exact per_document_failures_skip_only_that_document.2.2
      [⟨"empty.pdf", Except.ok "  "⟩, ⟨"good.pdf", Except.ok "Hello"⟩]
      ⟨"good.pdf", Except.ok "Hello"⟩ "Hello" (by simp) rfl (by decide)
      (by intro g hg
          rcases List.mem_cons.mp hg with rfl | hg2
          · exact ⟨"  ", rfl⟩
          · rcases List.mem_cons.mp hg2 with rfl | hg3
            · exact ⟨"Hello", rfl⟩
            · cases hg3)

/-! ## Claim C9 -/

lemma pageProgressEvents_spec (totalPages pageNumber : Nat) (page : PdfPage)
    (c : ProgressCounters) (hc : c.ocrProcessed ≤ c.ocrTotal) :
    ((pageProgressEvents totalPages pageNumber page c).1.textProcessed =
        c.textProcessed + 1 ∧
      c.ocrTotal ≤ (pageProgressEvents totalPages pageNumber page c).1.ocrTotal ∧
      (pageProgressEvents totalPages pageNumber page c).1.ocrProcessed ≤
        (pageProgressEvents totalPages pageNumber page c).1.ocrTotal) ∧
    (∀ ev ∈ (pageProgressEvents totalPages pageNumber page c).2,
      ev.totalPages = totalPages ∧
      ev.textProcessed ≤ c.textProcessed + 1 ∧
      ev.ocrProcessed ≤ ev.ocrTotal ∧
      c.ocrTotal ≤ ev.ocrTotal ∧
      ev.ocrTotal ≤ (pageProgressEvents totalPages pageNumber page c).1.ocrTotal) ∧
    ((pageProgressEvents totalPages pageNumber page c).2.map
      (fun ev => ev.ocrTotal)).Pairwise (fun a b => a ≤ b) := by
  simp only [pageProgressEvents]
  split
  · refine ⟨⟨rfl, le_refl _, hc⟩, ?_, ?_⟩
    · intro ev hev
      simp only [List.mem_cons, List.not_mem_nil, or_false] at hev
      rcases hev with rfl | rfl <;> refine ⟨rfl, ?_, ?_, ?_, ?_⟩ <;>
        simp <;> omega
    · simp
  · refine ⟨⟨rfl, by simp, by simp; omega⟩, ?_, ?_⟩
    · intro ev hev
      simp only [List.mem_cons, List.not_mem_nil, or_false] at hev
      rcases hev with rfl | rfl | rfl | rfl <;> refine ⟨rfl, ?_, ?_, ?_, ?_⟩ <;>
        simp <;> omega
    · simp [List.pairwise_cons]

lemma progressTraceAux_invariant :
    ∀ (pages : List PdfPage) (totalPages pageNumber : Nat)
      (c : ProgressCounters),
      c.textProcessed + pages.length ≤ totalPages →
      c.ocrProcessed ≤ c.ocrTotal →
      (∀ ev ∈ progressTraceAux totalPages pageNumber c pages,
        ev.totalPages = totalPages ∧ ev.textProcessed ≤ totalPages ∧
          ev.ocrProcessed ≤ ev.ocrTotal ∧ c.ocrTotal ≤ ev.ocrTotal) ∧
      ((progressTraceAux totalPages pageNumber c pages).map
        (fun ev => ev.ocrTotal)).Pairwise (fun a b => a ≤ b) := by
  intro pages
  induction pages with
  | nil =>
    intro totalPages pageNumber c _ _
    exact ⟨fun ev hev => absurd hev (List.not_mem_nil ev), List.Pairwise.nil⟩
  | cons page rest ih =>
    intro totalPages pageNumber c hlen hc
    obtain ⟨⟨htp, hotmono, hopot⟩, hevents, hpairwise⟩ :=
      pageProgressEvents_spec totalPages pageNumber page c hc
    have hlen2 :
        (pageProgressEvents totalPages pageNumber page c).1.textProcessed +
          rest.length ≤ totalPages := by
      rw [htp]
      simp only [List.length_cons] at hlen
      omega
    obtain ⟨ihevents, ihpairwise⟩ := ih totalPages (pageNumber + 1)
      (pageProgressEvents totalPages pageNumber page c).1 hlen2 hopot
    have hstep : progressTraceAux totalPages pageNumber c (page :: rest) =
        (pageProgressEvents totalPages pageNumber page c).2 ++
          progressTraceAux totalPages (pageNumber + 1)
            (pageProgressEvents totalPages pageNumber page c).1 rest := rfl
    rw [hstep]
    constructor
    · intro ev hev
      rcases List.mem_append.mp hev with hev2 | hev2
      · obtain ⟨h1, h2, h3, h4, _⟩ := hevents ev hev2
        refine ⟨h1, ?_, h3, h4⟩
        simp only [List.length_cons] at hlen
        omega
      · obtain ⟨h1, h2, h3, h4⟩ := ihevents ev hev2
        exact ⟨h1, h2, h3, le_trans hotmono h4⟩
    · rw [List.map_append, List.pairwise_append]
      refine ⟨hpairwise, ihpairwise, ?_⟩
      intro a ha b hb
      obtain ⟨ev1, hev1, rfl⟩ := List.mem_map.mp ha
      obtain ⟨ev2, hev2, rfl⟩ := List.mem_map.mp hb
      obtain ⟨_, _, _, _, h5⟩ := hevents ev1 hev1
      obtain ⟨_, _, _, h4⟩ := ihevents ev2 hev2
      exact le_trans h5 h4

/-- C9: every snapshot emitted during one extraction run satisfies
`textProcessed ≤ totalPages` and `ocrProcessed ≤ ocrTotal`, and the sequence
of `ocrTotal` values across the run is monotonically non-decreasing. -/
theorem progress_snapshots_invariants :
    ∀ pages : List PdfPage,
      (∀ ev ∈ extractionProgressTrace pages,
        ev.textProcessed ≤ ev.totalPages ∧ ev.ocrProcessed ≤ ev.ocrTotal) ∧
      ((extractionProgressTrace pages).map
        (fun ev => ev.ocrTotal)).Pairwise (fun a b => a ≤ b) := by
  intro pages
  obtain ⟨hevents, hpairwise⟩ := progressTraceAux_invariant pages pages.length
    1 ⟨0, 0, 0⟩ (by simp) (le_refl 0)
  refine ⟨?_, hpairwise⟩
  intro ev hev
  obtain ⟨h1, h2, h3, _⟩ := hevents ev hev
  rw [h1]
  exact ⟨h2, h3⟩

/-- Witness for C9: a concrete snapshot of the run over a one-page scanned
document satisfies the bounds. -/
theorem progress_snapshots_invariants_witness :
    (⟨1, 1, 1, 1, 1, ExtractionStage.ocr⟩ : PdfExtractionProgress) ∈
      extractionProgressTrace [PdfPage.mk "" "Scanned text"] ∧
    ((⟨1, 1, 1, 1, 1, ExtractionStage.ocr⟩ : PdfExtractionProgress).textProcessed ≤
        (⟨1, 1, 1, 1, 1, ExtractionStage.ocr⟩ : PdfExtractionProgress).totalPages ∧
      (⟨1, 1, 1, 1, 1, ExtractionStage.ocr⟩ : PdfExtractionProgress).ocrProcessed ≤
        (⟨1, 1, 1, 1, 1, ExtractionStage.ocr⟩ : PdfExtractionProgress).ocrTotal) :=
  ⟨by decide,
    (progress_snapshots_invariants [PdfPage.mk "" "Scanned text"]).1
      ⟨1, 1, 1, 1, 1, ExtractionStage.ocr⟩ (by decide)⟩

/-! ## Claim C10 -/

/-- Counterexample to C10 as stated: for a concrete short input the promise
does reject without invoking the provider, but the rejection's error message
is the generic wrapper produced by the catch clause, not the bare short-text
message. -/
theorem short_report_error_message_counterexample :
    (jsTrim "Too short.").length < 50 ∧
    (summarizeRadiologyReportJson true "Too short."
        (ProviderOutcome.ok "ignored")).2 =
      Except.error
        "Failed to extract radiology report: Radiology report text is too short to summarize." ∧
    (summarizeRadiologyReportJson true "Too short."
        (ProviderOutcome.ok "ignored")).2 ≠
      Except.error "Radiology report text is too short to summarize." := by
  refine ⟨by decide, rfl, ?_⟩
  intro h
  rw [show (summarizeRadiologyReportJson true "Too short."
      (ProviderOutcome.ok "ignored")).2 =
    Except.error
      "Failed to extract radiology report: Radiology report text is too short to summarize."
    from rfl] at h
  injection h with h
  exact absurd h (by decide)

/-- C10 (amended): with the API key configured, every input whose trimmed
length is below 50 characters makes `summarizeRadiologyReportJson` reject —
without invoking the provider — with the short-text error wrapped by the
generic catch clause, i.e. with message `Failed to extract radiology
report: Radiology report text is too short to summarize.`. -/
theorem short_report_rejected_before_provider :
    ∀ (reportText : String) (provider : ProviderOutcome),
      (jsTrim reportText).length < 50 →
      summarizeRadiologyReportJson true reportText provider =
        (false, Except.error
          "Failed to extract radiology report: Radiology report text is too short to summarize.") := by
  intro reportText provider h
  have hbody : radiologyTryBody true reportText provider =
      (false, Except.error ⟨none,
        "Radiology report text is too short to summarize."⟩) := by
    unfold radiologyTryBody
    rw [if_neg (by simp), if_pos (Or.inr h)]
  unfold summarizeRadiologyReportJson
  rw [hbody]
  rfl

/-- Witness for the amended C10: the concrete short input is rejected with
the wrapped message and no provider call. -/
theorem short_report_rejected_before_provider_witness :
    (jsTrim "Report body.").length < 50 ∧
    summarizeRadiologyReportJson true "Report body."
        (ProviderOutcome.ok "ignored") =
      (false, Except.error
        "Failed to extract radiology report: Radiology report text is too short to summarize.") :=
  ⟨by decide,
    short_report_rejected_before_provider "Report body."
      (ProviderOutcome.ok "ignored") (by decide)⟩
